import Mathlib

/-!
Shallow embedding of `main.py` of the OpenAI-Explainer repository.

The program extracts text from each slide of a .pptx presentation, sends one
chat-completion request per slide (all requests scheduled concurrently with
asyncio), retries on rate-limit errors with exponential backoff, collects the
per-slide answers, and writes them to `<basename-up-to-first-dot>.json`.

External collaborators (the pptx parser object tree, the remote chat API, the
backoff decorator's wait generator) are embedded as explicit data: slides are
records mirroring the attributes the code reads, the remote call is an oracle
function or an outcome list, and asyncio's cooperative scheduling is made
explicit by a launch phase (tasks run in creation order up to their first
network await, which is where `messages.append` happens) and a completion
order parameter (the order in which the awaited responses come back, which is
the order in which results are appended to the shared `explanations` list).
-/

/-! ## Slide data model (the attributes `main.py` reads from python-pptx objects) -/

/-- A text run inside a paragraph, with its `text` attribute. -/
structure SlideRun where
  text : String
deriving DecidableEq, Repr

/-- A paragraph of a text frame, with its `runs` attribute. -/
structure SlidePara where
  runs : List SlideRun
deriving DecidableEq, Repr

/-- A shape's text frame, with its `paragraphs` attribute. -/
structure TextFrame where
  paragraphs : List SlidePara
deriving DecidableEq, Repr

/-- A shape on a slide: `has_text_frame` flag and the `text_frame`
(only read when `has_text_frame` is true). -/
structure SlideShape where
  has_text_frame : Bool
  text_frame : TextFrame
deriving DecidableEq, Repr

/-- A slide, with its `shapes` attribute. -/
structure Slide where
  shapes : List SlideShape
deriving DecidableEq, Repr

/-- Python's `str.strip()`: remove leading and trailing whitespace. -/
def pyStrip (s : String) : String :=
  String.mk (((s.toList.dropWhile Char.isWhitespace).reverse.dropWhile
    Char.isWhitespace).reverse)

/-- `process_slide_text` (main.py lines 62-79): build the list `slide_text` by
looping over shapes (skipping those without a text frame), their paragraphs
and runs, appending `run.text.strip()` for each run, then `" ".join(...)`. -/
def process_slide_text (slide : Slide) : String :=
  let slide_text : List String :=
    slide.shapes.foldl (fun acc shape =>
      if !shape.has_text_frame then acc
      else shape.text_frame.paragraphs.foldl (fun acc2 paragraph =>
        paragraph.runs.foldl (fun acc3 run => acc3 ++ [pyStrip run.text]) acc2) acc) []
  String.intercalate " " slide_text

/-- The spec's words for `ExtractText`, as the claim states them: concatenates,
space-separated, the text of every run (NOT stripped) of every text-bearing
shape, in shape/paragraph/run order. Used to compare against the code. -/
def extractTextClaim (slide : Slide) : String :=
  String.intercalate " "
    ((slide.shapes.filter (fun sh => sh.has_text_frame)).flatMap
      (fun sh => sh.text_frame.paragraphs.flatMap
        (fun p => p.runs.map (fun r => r.text))))

/-- The amended spec for `ExtractText`: same as `extractTextClaim` but each
run's text is stripped of leading/trailing whitespace, as the code does. -/
def extractTextStripped (slide : Slide) : String :=
  String.intercalate " "
    ((slide.shapes.filter (fun sh => sh.has_text_frame)).flatMap
      (fun sh => sh.text_frame.paragraphs.flatMap
        (fun p => p.runs.map (fun r => pyStrip r.text))))

/-! ## Conversation and remote chat API model -/

/-- One `{role, content}` entry of the conversation. -/
structure Message where
  role : String
  content : String
deriving DecidableEq, Repr

/-- The module-level `messages` list as initialised at main.py lines 110-112:
the fixed system preamble (the conversation seed). -/
def messages_init : List Message :=
  [⟨"system", "Please summarize the slides and provide additional information."⟩]

/-- The `{role: user, content: process_slide_text(slide)}` entry that
`get_response` appends for a slide (main.py line 54). -/
def user_message (slide : Slide) : Message :=
  ⟨"user", process_slide_text slide⟩

/-- A choice of a chat-completion response (`response["choices"][i]`),
carrying its `message`. -/
structure Choice where
  message : Message
deriving DecidableEq, Repr

/-- A chat-completion response: its `choices` list. -/
structure ChatResponse where
  choices : List Choice
deriving DecidableEq, Repr

/-- `get_response` (main.py lines 43-59), success path, as a state
transformer on the shared `messages` list: append the user message for the
slide to `messages`, send the whole (mutated) list to the remote API, and
return the new `messages` state together with
`response["choices"][0].message.content`. The remote API is an oracle from
the sent payload to a response. -/
def get_response (msgs : List Message) (slide : Slide)
    (remote : List Message → ChatResponse) : List Message × String :=
  let msgs2 := msgs ++ [user_message slide]
  let response := remote msgs2
  (msgs2, ((response.choices.getD 0 ⟨⟨"", ""⟩⟩).message).content)

/-- The launch phase of `process_presentation` (main.py lines 16-21) under
asyncio's cooperative scheduling: `asyncio.create_task` is called once per
slide in slide order, and each task runs the body of `process_slide` /
`get_response` synchronously up to its first network await — so the
`messages.append` of every task happens in slide order, before any response
arrives. Returns the final `messages` state and, in slide order, the payload
each task sent to the remote API (the value of `messages` just after that
task's own append). -/
def launchPhase (msgs : List Message) : List Slide → List Message × List (List Message)
  | [] => (msgs, [])
  | s :: rest =>
      let msgs2 := msgs ++ [user_message s]
      let next := launchPhase msgs2 rest
      (next.1, msgs2 :: next.2)

/-- Outcome of a slide's awaited remote interaction, as seen by
`process_slide` (main.py lines 26-40): either the reply content returned by
`get_response`, or the message of a (non-rate-limit) exception caught by the
`try`/`except` block. Rate-limit errors never reach `process_slide`: the
backoff decorator on `get_response` retries them indefinitely. -/
inductive RemoteOutcome
  | ok (content : String)
  | err (msg : String)
deriving DecidableEq, Repr

/-- The body of `process_slide` after the await resolves: on success the
reply itself, on any exception the string
`f"Error processing slide: {str(e)}"`. The `try`/`except Exception` makes
this total: no outcome propagates an exception. -/
def slideResult : RemoteOutcome → String
  | .ok c => c
  | .err m => "Error processing slide: " ++ m

/-- The completion phase of `process_presentation`: `asyncio.gather` lets the
tasks finish in whatever order their network responses arrive; each task then
appends its result to the shared `explanations` list (main.py lines 37, 40),
so `explanations` holds the per-slide results in completion order. `outcomes`
is indexed by slide (outcome i belongs to slide i) and `order` is the
completion order, a permutation of the slide indices. -/
def process_presentation (outcomes : List RemoteOutcome) (order : List Nat) :
    List String :=
  order.map (fun i => slideResult (outcomes.getD i (.err "")))

/-! ## Backoff retry model -/

/-- Outcome of one attempt of the decorated `get_response` call body. -/
inductive AttemptOutcome
  | rateLimited
  | ok (content : String)
  | failed (msg : String)
deriving DecidableEq, Repr

/-- Modelled from the spec: the retry loop of
`@backoff.on_exception(backoff.expo, openai.error.RateLimitError)`
(main.py line 43) — library code not under src/. Per the spec, on a
rate-limit error the entire call is retried until it succeeds or a
non-rate-limit error occurs, with no retry cap. The oracle `attempts` lists
the outcome of each successive attempt; the result is the number of retries
performed together with the first non-rate-limit outcome, or `none` if the
oracle is exhausted while still rate-limited (the unbounded-retry case). -/
def run_with_backoff : List AttemptOutcome → Option (Nat × AttemptOutcome)
  | [] => none
  | .rateLimited :: rest =>
      (run_with_backoff rest).map (fun p => (p.1 + 1, p.2))
  | .ok c :: _ => some (0, .ok c)
  | .failed m :: _ => some (0, .failed m)

/-- Modelled from the spec: the base delays of the `backoff.expo` wait
generator for `k` retries — the base delay doubles per attempt, starting at
`2 ^ 0`. -/
def expo_delays (k : Nat) : List Nat :=
  (List.range k).map (fun n => 2 ^ n)

/-! ## Output file model -/

/-- Python's `str.split(sep)` for a one-character separator, on the
character list of the string: always returns a non-empty list of (possibly
empty) fragments. -/
def pySplit (sep : Char) : List Char → List (List Char)
  | [] => [[]]
  | c :: rest =>
      match pySplit sep rest with
      | [] => [[]]
      | w :: ws => if c = sep then [] :: w :: ws else (c :: w) :: ws

/-- Python's `lst[-1]` on the never-empty result of `split`. -/
def pyLast (l : List (List Char)) : List Char := l.getLast?.getD []

/-- Python's `lst[0]` on the never-empty result of `split`. -/
def pyHead (l : List (List Char)) : List Char := l.headD []

/-- The stem of the output file name (main.py line 89):
`presentation_path.split("/")[-1].split(".")[0]` — last `/`-separated
component, then the part before the first dot. -/
def output_stem (path : List Char) : List Char :=
  pyHead (pySplit '.' (pyLast (pySplit '/' path)))

/-- The output file name: the stem with `.json` appended. -/
def output_file (presentation_path : String) : String :=
  String.mk (output_stem presentation_path.toList) ++ ".json"

/-- One block written by `print_to_file` (main.py line 92):
`f'chat GPT answer {i + 1} {str(explanation)} \n\n'` for the 0-based
enumeration index `i`. Note the space between the explanation and the two
newlines. -/
def write_block (i : Nat) (explanation : String) : String :=
  "chat GPT answer " ++ toString (i + 1) ++ " " ++ explanation ++ " \n\n"

/-- The full content written by `print_to_file` (main.py lines 90-92): one
block per explanation, in list order, 1-indexed via `enumerate`. -/
def print_to_file_content (explanations : List String) : String :=
  String.join (explanations.enum.map (fun p => write_block p.1 p.2))

/-- `print_to_file` (main.py lines 82-92) as a pair: the name of the file it
opens and the content it writes. -/
def print_to_file (presentation_path : String) (explanations : List String) :
    String × String :=
  (output_file presentation_path, print_to_file_content explanations)

/-! ## Top level -/

/-- Argparse with one required positional `presentation` argument (main.py
lines 105-108): yields the path, or an error (argparse prints usage and
exits non-zero) when the argument is missing or extra arguments are given. -/
def parse_args : List String → Except String String
  | [p] => .ok p
  | _ => .error "usage: main.py presentation"

/-- The whole run (main.py lines 104-118 and `main`): parse the argument,
open the presentation (`Presentation(presentation_path)`, main.py line 16 —
an external parser that may fail on a bad path, modelled as an oracle),
process every slide, and write the output file. Errors raised before
per-slide processing are not caught anywhere, so they surface as the
`Except.error` of the run; per-slide work never raises. Returns the
(file name, file content) pair on success. -/
def runProgram (argv : List String)
    (openPres : String → Except String (List Slide))
    (outcomes : List RemoteOutcome) (order : List Nat) :
    Except String (String × String) :=
  match parse_args argv with
  | .error e => .error e
  | .ok path =>
      match openPres path with
      | .error e => .error e
      | .ok _slides =>
          .ok (print_to_file path (process_presentation outcomes order))

/-- Process exit status: a Python run that raises an uncaught exception (or
an argparse error) terminates non-zero; a run that completes exits 0. -/
def exit_code : Except String (String × String) → Nat
  | .error _ => 1
  | .ok _ => 0

/-! ## Spec-side definitions used to state the claims -/

/-- The output block as claim C5 states it: `"chat GPT answer <i> <text>"`
followed directly by two newlines — no space before the newlines. -/
def claim_block (n : Nat) (explanation : String) : String :=
  "chat GPT answer " ++ toString n ++ " " ++ explanation ++ "\n\n"

/-- The amended spec of the output blocks: 1-indexed blocks in list order,
each `"chat GPT answer <n> <text> "` followed by two newlines (the code puts
a space between the text and the newlines). -/
def spec_blocks : Nat → List String → List String
  | _, [] => []
  | n, e :: rest =>
      ("chat GPT answer " ++ toString n ++ " " ++ e ++ " \n\n") :: spec_blocks (n + 1) rest

/-- Concrete slides used as concrete inputs in the theorems below. -/
def slideA : Slide := ⟨[⟨true, ⟨[⟨[⟨"alpha"⟩]⟩]⟩⟩]⟩

def slideB : Slide := ⟨[⟨true, ⟨[⟨[⟨"beta"⟩]⟩]⟩⟩]⟩

/-- The slide of claim C6's example: a shape without a text frame followed by
a shape with one paragraph of two runs "Hello" and "World". -/
def hello_world_slide : Slide :=
  ⟨[⟨false, ⟨[]⟩⟩, ⟨true, ⟨[⟨[⟨"Hello"⟩, ⟨"World"⟩]⟩]⟩⟩]⟩

/-- A slide whose single run has surrounding whitespace, distinguishing
stripping from plain concatenation. -/
def padded_slide : Slide :=
  ⟨[⟨false, ⟨[]⟩⟩, ⟨true, ⟨[⟨[⟨" Hello "⟩]⟩]⟩⟩]⟩

/-- Concrete per-slide outcomes for two slides. -/
def outcomesAB : List RemoteOutcome := [.ok "A", .ok "B"]

/-- Concrete outcomes where the second slide's unit fails. -/
def outcomesErr : List RemoteOutcome := [.ok "A", .err "boom"]

/-! ## Helper lemmas -/

theorem foldl_append_map {α β : Type} (f : α → β) :
    ∀ (l : List α) (acc : List β),
      l.foldl (fun a x => a ++ [f x]) acc = acc ++ l.map f := by
  intro l
  induction l with
  | nil => intro acc; simp
  | cons x xs ih => intro acc; simp [List.foldl_cons, ih]

theorem para_foldl_closed (paragraphs : List SlidePara) (acc : List String) :
    paragraphs.foldl (fun a p => p.runs.foldl (fun a3 r => a3 ++ [pyStrip r.text]) a) acc
      = acc ++ paragraphs.flatMap (fun p => p.runs.map (fun r => pyStrip r.text)) := by
  induction paragraphs generalizing acc with
  | nil => simp
  | cons p ps ih =>
      rw [List.foldl_cons, foldl_append_map (fun r : SlideRun => pyStrip r.text), ih]
      simp [List.append_assoc]

theorem shape_foldl_closed (shapes : List SlideShape) (acc : List String) :
    shapes.foldl (fun a sh =>
        if !sh.has_text_frame then a
        else sh.text_frame.paragraphs.foldl (fun a2 p =>
          p.runs.foldl (fun a3 r => a3 ++ [pyStrip r.text]) a2) a) acc
      = acc ++ (shapes.filter (fun sh => sh.has_text_frame)).flatMap
          (fun sh => sh.text_frame.paragraphs.flatMap
            (fun p => p.runs.map (fun r => pyStrip r.text))) := by
  induction shapes generalizing acc with
  | nil => simp
  | cons sh shs ih =>
      cases h : sh.has_text_frame
      case true =>
        rw [List.foldl_cons, if_neg (by simp [h]), para_foldl_closed, ih]
        simp [List.filter_cons, h, List.append_assoc]
      case false =>
        rw [List.foldl_cons, if_pos (by simp [h]), ih]
        simp [List.filter_cons, h]

/-- Closed form of the launch phase: the final `messages` list is the initial
one with one user entry appended per slide in slide order, and the j-th
request payload is the initial list extended with the user entries of slides
0..j. -/
theorem launchPhase_eq (slides : List Slide) :
    ∀ msgs : List Message,
      launchPhase msgs slides
        = (msgs ++ slides.map user_message,
           (List.range slides.length).map
             (fun j => msgs ++ (slides.take (j + 1)).map user_message)) := by
  induction slides with
  | nil => intro msgs; simp [launchPhase]
  | cons s rest ih =>
      intro msgs
      rw [launchPhase, ih (msgs ++ [user_message s])]
      refine Prod.ext ?_ ?_
      · simp
      · show (msgs ++ [user_message s]) ::
            (List.range rest.length).map
              (fun j => msgs ++ [user_message s] ++ (rest.take (j + 1)).map user_message)
          = (List.range (s :: rest).length).map
              (fun j => msgs ++ ((s :: rest).take (j + 1)).map user_message)
        rw [List.length_cons, List.range_succ_eq_map, List.map_cons, List.map_map]
        refine congrArg₂ _ (by simp) ?_
        refine List.map_congr_left ?_
        intro j _
        simp [Function.comp, List.take_succ_cons, List.append_assoc]

/-- Mapping a function of the i-th element over the index range recovers the
mapped list. -/
theorem range_map_getD {α β : Type} (g : α → β) (d : α) :
    ∀ l : List α,
      (List.range l.length).map (fun i => g (l.getD i d)) = l.map g := by
  intro l
  induction l with
  | nil => simp
  | cons a rest ih =>
      rw [List.length_cons, List.range_succ_eq_map, List.map_cons, List.map_map]
      refine congrArg₂ _ rfl ?_
      rw [show ((fun i => g ((a :: rest).getD i d)) ∘ (· + 1))
            = (fun i => g (rest.getD i d)) from ?_, ih]
      funext i
      simp [Function.comp]

/-- The `enumerate`-based write loop produces exactly the 1-indexed spec
blocks. -/
theorem enumFrom_write_block (es : List String) :
    ∀ n : Nat, (List.enumFrom n es).map (fun p => write_block p.1 p.2)
      = spec_blocks (n + 1) es := by
  induction es with
  | nil => intro n; simp [spec_blocks]
  | cons e rest ih =>
      intro n
      simp only [List.enumFrom, List.map_cons, ih (n + 1)]
      rfl

theorem spec_blocks_length (es : List String) :
    ∀ n : Nat, (spec_blocks n es).length = es.length := by
  induction es with
  | nil => intro n; simp [spec_blocks]
  | cons e rest ih => intro n; simp [spec_blocks, ih (n + 1)]

/-- Python's `split` never returns an empty list. -/
theorem pySplit_ne_nil (sep : Char) (l : List Char) : pySplit sep l ≠ [] := by
  cases l with
  | nil => simp [pySplit]
  | cons c rest =>
      unfold pySplit
      cases h : pySplit sep rest with
      | nil => simp
      | cons w ws =>
          dsimp only
          split <;> simp

/-- Splitting on a character that does not occur yields the whole string as
the single fragment. -/
theorem pySplit_of_not_mem {sep : Char} : ∀ {l : List Char}, sep ∉ l →
    pySplit sep l = [l] := by
  intro l
  induction l with
  | nil => intro _; rfl
  | cons c rest ih =>
      intro h
      have hc : ¬c = sep := fun e => h (e ▸ List.mem_cons_self c rest)
      have hr : sep ∉ rest := fun hm => h (List.mem_cons_of_mem _ hm)
      simp [pySplit, ih hr, hc]

/-- If the separator occurs, the split has at least two fragments. -/
theorem two_le_length_pySplit {sep : Char} : ∀ {l : List Char}, sep ∈ l →
    2 ≤ (pySplit sep l).length := by
  intro l
  induction l with
  | nil => intro h; cases h
  | cons c rest ih =>
      intro h
      unfold pySplit
      cases hr : pySplit sep rest with
      | nil => exact absurd hr (pySplit_ne_nil sep rest)
      | cons w ws =>
          dsimp only
          by_cases hc : c = sep
          · rw [if_pos hc]; simp
          · rw [if_neg hc]
            have hmem : sep ∈ rest := by
              rcases List.mem_cons.mp h with h1 | h1
              · exact absurd h1.symm hc
              · exact h1
            have := ih hmem
            rw [hr] at this
            simpa using this

/-- Prepending a character does not change the last fragment as long as the
separator still occurs in the remainder. -/
theorem pyLast_pySplit_cons {sep c : Char} {rest : List Char} (h : sep ∈ rest) :
    pyLast (pySplit sep (c :: rest)) = pyLast (pySplit sep rest) := by
  unfold pyLast
  cases hr : pySplit sep rest with
  | nil => exact absurd hr (pySplit_ne_nil sep rest)
  | cons w ws =>
      have hlen := two_le_length_pySplit h
      rw [hr] at hlen
      have hws : ws ≠ [] := by
        cases ws with
        | nil => simp at hlen
        | cons y ys => simp
      show (pySplit sep (c :: rest)).getLast?.getD [] = (w :: ws).getLast?.getD []
      unfold pySplit
      rw [hr]
      dsimp only
      by_cases hc : c = sep
      · rw [if_pos hc, List.getLast?_cons_cons]
      · rw [if_neg hc]
        cases ws with
        | nil => exact absurd rfl hws
        | cons y ys => rw [List.getLast?_cons_cons, List.getLast?_cons_cons]

/-- The last `/`-separated fragment of `dir ++ "/" ++ base` is `base`
whenever `base` contains no separator. -/
theorem pyLast_pySplit_append {sep : Char} {base : List Char} (h : sep ∉ base) :
    ∀ dir : List Char, pyLast (pySplit sep (dir ++ sep :: base)) = base := by
  intro dir
  induction dir with
  | nil =>
      rw [List.nil_append]
      show pyLast (pySplit sep (sep :: base)) = base
      unfold pySplit
      rw [pySplit_of_not_mem h]
      simp [pyLast]
  | cons c rest ih =>
      have hmem : sep ∈ rest ++ sep :: base :=
        List.mem_append_right _ (List.mem_cons_self _ _)
      rw [List.cons_append, pyLast_pySplit_cons hmem, ih]

/-- The first fragment of a split is the longest separator-free initial
segment. -/
theorem pyHead_pySplit (sep : Char) : ∀ l : List Char,
    pyHead (pySplit sep l) = l.takeWhile (fun c => c ≠ sep) := by
  intro l
  induction l with
  | nil => rfl
  | cons c rest ih =>
      unfold pyHead at *
      cases hr : pySplit sep rest with
      | nil => exact absurd hr (pySplit_ne_nil sep rest)
      | cons w ws =>
          unfold pySplit
          rw [hr]
          dsimp only
          rw [hr] at ih
          by_cases hc : c = sep
          · rw [if_pos hc]
            simp [List.takeWhile_cons, hc]
          · rw [if_neg hc]
            simp only [List.headD_cons] at ih
            simp [List.takeWhile_cons, hc, ih]

/-- Helper for C4: the decorated call keeps retrying while the oracle
rate-limits and returns the first non-rate-limit outcome with the count of
retries performed. -/
theorem run_with_backoff_replicate (o : AttemptOutcome) (ho : o ≠ .rateLimited) :
    ∀ K : Nat, run_with_backoff (List.replicate K .rateLimited ++ [o]) = some (K, o) := by
  intro K
  induction K with
  | zero =>
      cases o with
      | rateLimited => exact absurd rfl ho
      | ok c => rfl
      | failed m => rfl
  | succ k ih =>
      rw [List.replicate_succ, List.cons_append]
      show (run_with_backoff (List.replicate k .rateLimited ++ [o])).map
        (fun p => (p.1 + 1, p.2)) = some (k + 1, o)
      rw [ih]
      rfl

/-- Helper for C4: the n-th base backoff delay is `2 ^ n`. -/
theorem expo_delays_getD {K n : Nat} (h : n < K) :
    (expo_delays K).getD n 0 = 2 ^ n := by
  unfold expo_delays
  rw [List.getD_eq_getElem?_getD, List.getElem?_map, List.getElem?_range h]
  rfl

/-! ## Claim theorems -/

/-- C1, counterexample: with two slides whose units both succeed (replies "A"
and "B") but whose responses arrive in the order second-then-first (the
completion order `[1, 0]`, a legitimate permutation of the launch order), the
shared `explanations` list ends up as `["B", "A"]`: `results[0]` is NOT the
result computed for `slides[0]`, so index alignment does not hold regardless
of completion order. -/
theorem c1_completion_order_counterexample :
    List.Perm [1, 0] (List.range 2)
    ∧ process_presentation outcomesAB [1, 0] = ["B", "A"]
    ∧ (process_presentation outcomesAB [1, 0]).getD 0 ""
        ≠ slideResult (outcomesAB.getD 0 (.err "")) := by decide

/-- C1, amended: for every completion order (any permutation of the slide
indices) and regardless of per-slide failures, `process_presentation` returns
exactly N results, and those results are a permutation of the per-slide
results; the i-th result corresponds to the i-th slide when the units
complete in launch order. -/
theorem process_presentation_length_order (outcomes : List RemoteOutcome)
    (order : List Nat) (h : order.Perm (List.range outcomes.length)) :
    (process_presentation outcomes order).length = outcomes.length
    ∧ (process_presentation outcomes order).Perm (outcomes.map slideResult)
    ∧ process_presentation outcomes (List.range outcomes.length)
        = outcomes.map slideResult := by
  have key : (List.range outcomes.length).map
      (fun i => slideResult (outcomes.getD i (.err "")))
        = outcomes.map slideResult :=
    range_map_getD slideResult (.err "") outcomes
  refine ⟨?_, ?_, key⟩
  · unfold process_presentation
    rw [List.length_map, h.length_eq, List.length_range]
  · unfold process_presentation
    rw [← key]
    exact h.map _

/-- Witness for the amended C1 theorem at a concrete input. -/
theorem process_presentation_length_order_witness :
    (process_presentation outcomesAB [1, 0]).length = 2
    ∧ process_presentation outcomesAB (List.range 2) = outcomesAB.map slideResult := by
  have h := process_presentation_length_order outcomesAB [1, 0] (by decide)
  exact ⟨h.1, h.2.2⟩

/-- C2, counterexample: with two slides ("alpha" and "beta"), the second
request's payload is the shared `messages` list after BOTH appends — it
contains slide 1's text, is not `seed ++ [own message]`, and the shared list
itself has been mutated away from its seed value. -/
theorem c2_shared_messages_counterexample :
    (launchPhase messages_init [slideA, slideB]).2.getD 1 []
      = messages_init ++ [user_message slideA, user_message slideB]
    ∧ (launchPhase messages_init [slideA, slideB]).2.getD 1 []
        ≠ messages_init ++ [user_message slideB]
    ∧ user_message slideA ∈ (launchPhase messages_init [slideA, slideB]).2.getD 1 []
    ∧ (launchPhase messages_init [slideA, slideB]).1 ≠ messages_init := by decide

/-- C2, amended: each call to `get_response` appends its own user message to
the single shared `messages` list and sends the whole accumulated list, so
(in launch order, without retries) the j-th request's payload is the seed
followed by the user messages of slides 0..j — later requests do contain
earlier slides' texts. -/
theorem request_payloads_accumulate (slides : List Slide) :
    (launchPhase messages_init slides).2
      = (List.range slides.length).map
          (fun j => messages_init ++ (slides.take (j + 1)).map user_message) := by
  rw [launchPhase_eq slides messages_init]

/-- C3: a non-rate-limit exception in a slide's unit is absorbed by the
`try`/`except` of `process_slide` into the string
`"Error processing slide: " ++ message` (never re-raised: `slideResult` and
`process_presentation` are total functions into strings), the overall result
list still has one entry per slide, and every slide's own result — including
every other, unaffected slide's — appears in the collected list. -/
theorem process_slide_error_absorbed (outcomes : List RemoteOutcome)
    (order : List Nat) (j : Nat) (m : String)
    (hperm : order.Perm (List.range outcomes.length))
    (hj : outcomes.getD j (.err "") = .err m) :
    slideResult (outcomes.getD j (.err "")) = "Error processing slide: " ++ m
    ∧ (process_presentation outcomes order).length = outcomes.length
    ∧ ∀ i, i < outcomes.length →
        slideResult (outcomes.getD i (.err "")) ∈ process_presentation outcomes order := by
  refine ⟨by rw [hj]; rfl, ?_, ?_⟩
  · unfold process_presentation
    rw [List.length_map, hperm.length_eq, List.length_range]
  · intro i hi
    have hmem : i ∈ order := hperm.mem_iff.mpr (List.mem_range.mpr hi)
    exact List.mem_map.mpr ⟨i, hmem, rfl⟩

/-- Witness for C3 at a concrete input: slide 1 fails with "boom", slide 0
still yields its own result. -/
theorem process_slide_error_absorbed_witness :
    slideResult (outcomesErr.getD 1 (.err "")) = "Error processing slide: boom"
    ∧ (process_presentation outcomesErr [1, 0]).length = 2
    ∧ slideResult (outcomesErr.getD 0 (.err "")) ∈ process_presentation outcomesErr [1, 0] := by
  have h := process_slide_error_absorbed outcomesErr [1, 0] 1 "boom" (by decide) (by decide)
  exact ⟨h.1, h.2.1, h.2.2 0 (by decide)⟩

/-- C4: if the remote call rate-limits exactly K times and then succeeds, the
decorated call performs exactly K retries and returns the success value; it
stops only on a success or a non-rate-limit error (shown for both); and the
base backoff delays `2 ^ 0, ..., 2 ^ (K-1)` of the `backoff.expo` generator
are strictly increasing, doubling per attempt. -/
theorem backoff_retry_spec (K : Nat) (v : String) :
    run_with_backoff (List.replicate K .rateLimited ++ [.ok v]) = some (K, .ok v)
    ∧ (∀ m : String,
        run_with_backoff (List.replicate K .rateLimited ++ [.failed m])
          = some (K, .failed m))
    ∧ (expo_delays K).Pairwise (· < ·)
    ∧ ∀ n, n + 1 < K →
        (expo_delays K).getD (n + 1) 0 = 2 * (expo_delays K).getD n 0 := by
  refine ⟨run_with_backoff_replicate (.ok v) (by simp) K,
    fun m => run_with_backoff_replicate (.failed m) (by simp) K, ?_, ?_⟩
  · exact (List.pairwise_lt_range K).map (fun n => 2 ^ n)
      (fun a b hab => Nat.pow_lt_pow_right (by norm_num) hab)
  · intro n hn
    rw [expo_delays_getD hn, expo_delays_getD (Nat.lt_of_succ_lt hn), pow_succ,
      Nat.mul_comm]

/-- Witness for C4 at K = 2. -/
theorem backoff_retry_spec_witness :
    run_with_backoff (List.replicate 2 .rateLimited ++ [.ok "done"]) = some (2, .ok "done")
    ∧ run_with_backoff (List.replicate 2 .rateLimited ++ [.failed "bad"])
        = some (2, .failed "bad")
    ∧ (expo_delays 2).getD 1 0 = 2 * (expo_delays 2).getD 0 0 := by
  have h := backoff_retry_spec 2 "done"
  exact ⟨h.1, h.2.1 "bad", h.2.2.2 0 (by decide)⟩

/-- C5, counterexample: the code writes
`f'chat GPT answer {i + 1} {str(explanation)} \n\n'` — there is a space
between the result text and the two newlines, so the block is not
`"chat GPT answer <i> <result-text>"` directly followed by two newlines. -/
theorem c5_block_space_counterexample :
    print_to_file_content ["ok"] = "chat GPT answer 1 ok \n\n"
    ∧ claim_block 1 "ok" = "chat GPT answer 1 ok\n\n"
    ∧ print_to_file_content ["ok"] ≠ claim_block 1 "ok" := by decide

/-- C5, amended: the run writes a file named from the input basename
truncated at its first dot with `.json` appended (for "demo.pptx" that is
"demo.json"), whose content is exactly one block per result in the order of
the results sequence, the i-th block (1-indexed) being
`"chat GPT answer <i> <result-text> "` followed by two newlines (with a
space before the newlines). -/
theorem print_to_file_spec (explanations : List String) :
    print_to_file_content explanations = String.join (spec_blocks 1 explanations)
    ∧ (spec_blocks 1 explanations).length = explanations.length
    ∧ print_to_file "demo.pptx" explanations
        = ("demo.json", String.join (spec_blocks 1 explanations)) := by
  have hc : print_to_file_content explanations
      = String.join (spec_blocks 1 explanations) := by
    unfold print_to_file_content
    rw [show explanations.enum = List.enumFrom 0 explanations from rfl,
      enumFrom_write_block explanations 0]
  refine ⟨hc, spec_blocks_length explanations 1, ?_⟩
  unfold print_to_file
  rw [hc, show output_file "demo.pptx" = "demo.json" from by decide]

/-- C6, counterexample: the code strips each run's text
(`run.text.strip()`), so a run `" Hello "` contributes `"Hello"`, not its
literal text: the result is not the concatenation of the (unstripped) run
texts the claim describes. -/
theorem c6_unstripped_counterexample :
    process_slide_text padded_slide = "Hello"
    ∧ extractTextClaim padded_slide = " Hello "
    ∧ process_slide_text padded_slide ≠ extractTextClaim padded_slide := by decide

/-- C6, amended: `process_slide_text` concatenates, separated by single
spaces, the STRIPPED text of every run of every paragraph of every shape
with a text frame, in shape/paragraph/run order; shapes without a text frame
contribute nothing; a slide with no runs yields the empty string; and the
claim's example slide yields "Hello World". -/
theorem process_slide_text_spec (slide : Slide) :
    process_slide_text slide = extractTextStripped slide
    ∧ process_slide_text hello_world_slide = "Hello World"
    ∧ process_slide_text (Slide.mk []) = "" := by
  refine ⟨?_, by decide, by decide⟩
  unfold process_slide_text extractTextStripped
  rw [shape_foldl_closed]
  rfl

/-- C7: on success `get_response` returns the message content of the first
choice of the remote response, and when every slide's remote interaction
succeeds, the per-slide results are exactly the reply contents the
collaborator returned, slide by slide. -/
theorem get_response_first_choice (msgs : List Message) (slide : Slide)
    (remote : List Message → ChatResponse) (c : Choice) (rest : List Choice)
    (h : (remote (msgs ++ [user_message slide])).choices = c :: rest) :
    (get_response msgs slide remote).2 = c.message.content
    ∧ ∀ contents : List String,
        process_presentation (contents.map RemoteOutcome.ok)
          (List.range (contents.map RemoteOutcome.ok).length) = contents := by
  constructor
  · unfold get_response
    dsimp only
    rw [h]
    rfl
  · intro contents
    unfold process_presentation
    rw [range_map_getD slideResult (.err "") (contents.map RemoteOutcome.ok),
      List.map_map]
    have hid : slideResult ∘ RemoteOutcome.ok = id := funext fun s => rfl
    rw [hid, List.map_id]

/-- Witness for C7 at a concrete input. -/
theorem get_response_first_choice_witness :
    (get_response messages_init slideA
        (fun _ => ⟨[⟨⟨"assistant", "summary"⟩⟩]⟩)).2 = "summary"
    ∧ process_presentation (["A", "B"].map RemoteOutcome.ok)
        (List.range (["A", "B"].map RemoteOutcome.ok).length) = ["A", "B"] := by
  have h := get_response_first_choice messages_init slideA
    (fun _ => ⟨[⟨⟨"assistant", "summary"⟩⟩]⟩) ⟨⟨"assistant", "summary"⟩⟩ [] rfl
  exact ⟨h.1, h.2 ["A", "B"]⟩

/-- C8: a missing argument or an error from opening the presentation is not
caught anywhere: it surfaces as the error of the whole run with a non-zero
exit, and the run's value is then independent of anything the per-slide
units would have produced (no slide is processed); when startup succeeds and
every unit completes, the run exits 0 after producing the output file's name
and content. -/
theorem startup_errors_propagate (path : String)
    (openPres : String → Except String (List Slide))
    (outcomes : List RemoteOutcome) (order : List Nat) (e : String) :
    (runProgram [] openPres outcomes order = .error "usage: main.py presentation"
      ∧ exit_code (runProgram [] openPres outcomes order) ≠ 0)
    ∧ (openPres path = .error e →
        runProgram [path] openPres outcomes order = .error e
        ∧ exit_code (runProgram [path] openPres outcomes order) ≠ 0
        ∧ ∀ (outcomes2 : List RemoteOutcome) (order2 : List Nat),
            runProgram [path] openPres outcomes2 order2
              = runProgram [path] openPres outcomes order)
    ∧ ∀ slides, openPres path = .ok slides →
        runProgram [path] openPres outcomes order
          = .ok (output_file path,
              print_to_file_content (process_presentation outcomes order))
        ∧ exit_code (runProgram [path] openPres outcomes order) = 0 := by
  refine ⟨⟨rfl, by simp [runProgram, parse_args, exit_code]⟩, ?_, ?_⟩
  · intro h
    refine ⟨?_, ?_, ?_⟩ <;> simp [runProgram, parse_args, h, exit_code]
  · intro slides h
    constructor <;> simp [runProgram, parse_args, h, exit_code, print_to_file]

/-- Witness for C8: a bad path terminates the run with a non-zero exit; a
good path with one succeeding slide exits 0 with the expected file. -/
theorem startup_errors_propagate_witness :
    runProgram ["missing.pptx"] (fun _ => .error "No such file or directory") [] []
      = .error "No such file or directory"
    ∧ exit_code (runProgram ["missing.pptx"]
        (fun _ => .error "No such file or directory") [] []) ≠ 0
    ∧ runProgram ["demo.pptx"] (fun _ => .ok [slideA]) [.ok "A"] [0]
        = .ok ("demo.json", "chat GPT answer 1 A \n\n")
    ∧ exit_code (runProgram ["demo.pptx"] (fun _ => .ok [slideA]) [.ok "A"] [0]) = 0 := by
  have h1 := (startup_errors_propagate "missing.pptx"
    (fun _ => .error "No such file or directory") [] [] "No such file or directory").2.1 rfl
  have h2 := (startup_errors_propagate "demo.pptx"
    (fun _ => .ok [slideA]) [.ok "A"] [0] "").2.2 [slideA] rfl
  refine ⟨h1.1, h1.2.1, ?_, h2.2⟩
  rw [h2.1, show output_file "demo.pptx" = "demo.json" from by decide,
    show print_to_file_content (process_presentation [RemoteOutcome.ok "A"] [0])
      = "chat GPT answer 1 A \n\n" from by decide]

/-- C9: every `get_response` call appends exactly one user entry to the
shared `messages` list and removes nothing, so after launching the units for
all N slides (no retries) the final list is the seed followed by one user
message per slide — N + 1 entries — and the j-th request's payload already
contains the seed plus the texts of all j previously appended slides in
addition to its own (the closed payload form restates this containment). -/
theorem messages_growth (msgs : List Message) (slides : List Slide) :
    (launchPhase msgs slides).1 = msgs ++ slides.map user_message
    ∧ (launchPhase messages_init slides).1.length = slides.length + 1
    ∧ (launchPhase msgs slides).2
        = (List.range slides.length).map
            (fun j => msgs ++ (slides.take (j + 1)).map user_message)
    ∧ ∀ (slide : Slide) (remote : List Message → ChatResponse),
        (get_response msgs slide remote).1 = msgs ++ [user_message slide] := by
  refine ⟨?_, ?_, ?_, fun slide remote => rfl⟩
  · rw [launchPhase_eq slides msgs]
  · rw [launchPhase_eq slides messages_init]
    simp [messages_init, Nat.add_comm]
  · rw [launchPhase_eq slides msgs]

/-- C10: the output file name is the last `/`-separated component of the
input path truncated at its FIRST dot, with `.json` appended — both for
paths with a directory part and without one; in particular "a.b.pptx" maps
to "a.json", not to "a.b.json" (the basename minus its final extension). -/
theorem output_filename_first_dot (dir base : List Char) (hbase : '/' ∉ base) :
    output_file (String.mk (dir ++ '/' :: base))
      = String.mk (base.takeWhile (fun c => c ≠ '.')) ++ ".json"
    ∧ output_file (String.mk base)
        = String.mk (base.takeWhile (fun c => c ≠ '.')) ++ ".json"
    ∧ output_file "a.b.pptx" = "a.json"
    ∧ "a.json" ≠ "a.b.json" := by
  refine ⟨?_, ?_, by decide, by decide⟩
  · unfold output_file output_stem
    rw [show (String.mk (dir ++ '/' :: base)).toList = dir ++ '/' :: base from rfl,
      pyLast_pySplit_append hbase dir, pyHead_pySplit]
  · unfold output_file output_stem
    rw [show (String.mk base).toList = base from rfl, pySplit_of_not_mem hbase]
    rw [show pyLast [base] = base from by simp [pyLast], pyHead_pySplit]

/-- Witness for C10 at the concrete path "dir/a.b.pptx". -/
theorem output_filename_first_dot_witness :
    output_file (String.mk (['d', 'i', 'r'] ++ '/' :: ['a', '.', 'b', '.', 'p', 'p', 't', 'x']))
      = String.mk (List.takeWhile (fun c => c ≠ '.')
          ['a', '.', 'b', '.', 'p', 'p', 't', 'x']) ++ ".json" :=
  (output_filename_first_dot ['d', 'i', 'r']
    ['a', '.', 'b', '.', 'p', 'p', 't', 'x'] (by decide)).1
